import Mathlib

/-!
Shallow embedding of the expense-tracker view-state / session controller
(the `App` root component, in its two cited variants) together with the
store and identity-provider boundaries it drives, and proofs of the
specification's claims about it.

Variant 1 (`...V1`) is the `App` component that shows an interstitial
WELCOME screen after sign-in; Variant 2 (`...V2`) is the `App` component
that goes straight to DASHBOARD and carries the budget-upsert fallback
and the legacy textual timestamp parser.
-/

/-- The `AppView` enumeration from `types.ts`: the screen currently shown. -/
inductive AppView where
  | LOGIN
  | REGISTER
  | WELCOME
  | DASHBOARD
  | REPORT
  | ADD_EXPENSE
  | EDIT_EXPENSE
deriving DecidableEq, Repr

/-- Modelled from the spec: the fixed expense-category enumeration
(`ExpenseItem` in `types.ts`, which is not under `src/`); the spec and the
source mention `FOOD`, transport and `OTHER` among its members.  No claim
depends on the exact member list. -/
inductive ExpenseItem where
  | FOOD
  | TRANSPORT
  | OTHER
deriving DecidableEq, Repr

/-- The raw identity delivered by the identity provider (`fbUser` in the
`onAuthStateChanged` callback); `email`, `displayName` and `photoURL` may be
null. -/
structure FbUser where
  uid : String
  email : Option String
  displayName : Option String
  photoURL : Option String
deriving DecidableEq, Repr

/-- The controller's `User` value (from `types.ts`, reconstructed from the
literal `currentUser` object built in the callback). -/
structure User where
  uid : String
  email : String
  displayName : Option String
  photoURL : Option String
deriving DecidableEq, Repr

/-- JS `x || undefined` applied to a nullable string: empty or null becomes
undefined. -/
def orUndef (o : Option String) : Option String :=
  match o with
  | some s => if s = "" then none else some s
  | none => none

/-- The `currentUser` object built from the provider's identity:
`email: fbUser.email || ''`, `displayName: fbUser.displayName || undefined`,
`photoURL: fbUser.photoURL || undefined`. -/
def toUser (fu : FbUser) : User :=
  { uid := fu.uid
    email := fu.email.getD ""
    displayName := orUndef fu.displayName
    photoURL := orUndef fu.photoURL }

/-- The heterogeneous representations a `timestamp` field can arrive in on a
snapshot document: a JS number, an object with a `seconds` field, an object
with a `toDate()` function (represented by the epoch milliseconds that
`toDate().getTime()` returns), a string, or anything else. -/
inductive TsValue where
  | num (n : Int)
  | secondsObj (seconds : Int)
  | toDateObj (epochMillis : Int)
  | str (s : String)
  | other
deriving DecidableEq, Repr

/-- A normalized expense record as held in controller state (`Expense` in
`types.ts`). -/
structure Expense where
  id : String
  userId : String
  amount : Int
  item : ExpenseItem
  description : String
  timestamp : Int
deriving DecidableEq, Repr

/-- An expense document as stored in the document store (written by
`handleAddExpense` / `handleUpdateExpense`); its timestamp is stored in
whatever representation was written. -/
structure StoredExpense where
  id : String
  userId : String
  amount : Int
  item : ExpenseItem
  description : String
  timestamp : TsValue
deriving DecidableEq, Repr

/-- A raw document of an expense-collection snapshot: `docId` is the
store-generated key (`fbDoc.id`), the remaining fields are the document's
data.  `item` is optional (`data.item || ExpenseItem.OTHER` in the source). -/
structure RawDoc where
  docId : String
  userId : String
  amount : Int
  item : Option ExpenseItem
  description : String
  timestamp : TsValue
deriving DecidableEq, Repr

/-- A user profile document (`users/{uid}`); all fields optional, since
merge-writes can create partial documents. -/
structure ProfileDoc where
  email : Option String
  displayName : Option String
  photoURL : Option String
  createdAt : Option Int
  lastLogin : Option Int
  monthlyBudget : Option Int
deriving DecidableEq, Repr

/-- Association-list lookup (document stores keyed by string ids). -/
def alookup {α : Type} : List (String × α) → String → Option α
  | [], _ => none
  | (k, v) :: rest, key => if k = key then some v else alookup rest key

/-- Association-list overwrite-or-append. -/
def aset {α : Type} : List (String × α) → String → α → List (String × α)
  | [], key, v => [(key, v)]
  | (k, w) :: rest, key, v =>
      if k = key then (key, v) :: rest else (k, w) :: aset rest key v

/-- Association-list removal (point delete). -/
def aremove {α : Type} (l : List (String × α)) (key : String) :
    List (String × α) :=
  l.filter (fun kv => kv.1 ≠ key)

/-- The profile side of the document store: `users/{uid}` documents. -/
def PStore : Type := List (String × ProfileDoc)

/-- The expense side of the document store:
`users/{uid}/expenses/{recordId}` documents, grouped per uid. -/
def EStore : Type := List (String × List (String × StoredExpense))

/-- The expense collection of one user (empty if the user has none). -/
def getColl (es : EStore) (uid : String) : List (String × StoredExpense) :=
  (alookup es uid).getD []

/-- Replace the expense collection of one user. -/
def setColl (es : EStore) (uid : String)
    (coll : List (String × StoredExpense)) : EStore :=
  aset es uid coll

/-- The controller's state slice (the `useState` hooks of `App`). -/
structure AppState where
  view : AppView
  user : Option User
  expenses : List Expense
  budget : Int
  editingExpense : Option Expense
  loading : Bool
  dbError : Option String
  indexUrl : Option String
deriving DecidableEq, Repr

/-- Initial controller state: `view = 'LOGIN'`, no user, empty list,
budget 10000, no editing target, loading. -/
def initialState : AppState :=
  { view := AppView.LOGIN
    user := none
    expenses := []
    budget := 10000
    editingExpense := none
    loading := true
    dbError := none
    indexUrl := none }

/-- `handleNavigate` (both variants): clears the editing target unless the
target screen is `EDIT_EXPENSE`, then sets the view. -/
def handleNavigate (s : AppState) (newView : AppView) : AppState :=
  if newView ≠ AppView.EDIT_EXPENSE then
    { s with editingExpense := none, view := newView }
  else
    { s with view := newView }

/-- `startEdit` (both variants): sets the editing target and enters
`EDIT_EXPENSE`. -/
def startEdit (s : AppState) (expense : Expense) : AppState :=
  { s with editingExpense := some expense, view := AppView.EDIT_EXPENSE }

/-- Variant 1's post-sign-in view updater:
`(prev === 'LOGIN' || prev === 'REGISTER') ? 'WELCOME' :
 prev === 'WELCOME' ? 'WELCOME' : 'DASHBOARD'`. -/
def authViewUpdateV1 (v : AppView) : AppView :=
  if v = AppView.LOGIN ∨ v = AppView.REGISTER then AppView.WELCOME
  else if v = AppView.WELCOME then AppView.WELCOME
  else AppView.DASHBOARD

/-- Variant 1's profile-ensure step inside the `onAuthStateChanged`
callback: read `users/{uid}`; if absent, create it with the identity's
fields, `createdAt`/`lastLogin` now and `monthlyBudget` 10000; if present,
update only `lastLogin`. -/
def ensureProfileV1 (fu : FbUser) (now : Int) (ps : PStore) : PStore :=
  match alookup ps fu.uid with
  | none =>
      aset ps fu.uid
        { email := fu.email
          displayName := fu.displayName
          photoURL := fu.photoURL
          createdAt := some now
          lastLogin := some now
          monthlyBudget := some 10000 }
  | some d => aset ps fu.uid { d with lastLogin := some now }

/-- Variant 2's profile-ensure step: create the profile when absent, do
nothing when present (no `lastLogin` refresh). -/
def ensureProfileV2 (fu : FbUser) (now : Int) (ps : PStore) : PStore :=
  match alookup ps fu.uid with
  | none =>
      aset ps fu.uid
        { email := fu.email
          displayName := fu.displayName
          photoURL := fu.photoURL
          createdAt := some now
          lastLogin := some now
          monthlyBudget := some 10000 }
  | some _ => ps

/-- Variant 1's `onAuthStateChanged` callback: on an identity, capture the
user, ensure the profile, apply the view updater, stop loading; on a null
identity, clear the user and the expense list and return to `LOGIN`
(the editing target is not touched). -/
def authCallbackV1 (s : AppState) (ps : PStore) (fb : Option FbUser)
    (now : Int) : AppState × PStore :=
  match fb with
  | some fu =>
      ({ s with
          user := some (toUser fu)
          view := authViewUpdateV1 s.view
          loading := false },
       ensureProfileV1 fu now ps)
  | none =>
      ({ s with
          user := none
          expenses := []
          view := AppView.LOGIN
          loading := false },
       ps)

/-- Variant 2's `onAuthStateChanged` callback: same sign-out branch; on an
identity it ensures the profile (create-if-absent only) and always sets the
view to `DASHBOARD`. -/
def authCallbackV2 (s : AppState) (ps : PStore) (fb : Option FbUser)
    (now : Int) : AppState × PStore :=
  match fb with
  | some fu =>
      ({ s with
          user := some (toUser fu)
          view := AppView.DASHBOARD
          loading := false },
       ensureProfileV2 fu now ps)
  | none =>
      ({ s with
          user := none
          expenses := []
          view := AppView.LOGIN
          loading := false },
       ps)

/-- `handleAddExpense` (both variants): requires a user; writes a new
document `{id: freshId, userId, amount, item, description, timestamp: now}`
under a store-generated fresh key and on success navigates to `DASHBOARD`. -/
def handleAddExpense (s : AppState) (es : EStore) (freshId : String)
    (now : Int) (amount : Int) (item : ExpenseItem) (description : String) :
    AppState × EStore :=
  match s.user with
  | none => (s, es)
  | some u =>
      let coll := getColl es u.uid
      let docData : StoredExpense :=
        { id := freshId
          userId := u.uid
          amount := amount
          item := item
          description := description
          timestamp := TsValue.num now }
      ({ s with view := AppView.DASHBOARD },
       setColl es u.uid (aset coll freshId docData))

/-- `handleUpdateExpense` (both variants): requires a user and an editing
target; updates `{amount, item, description, userId}` on the target's
document (preserving its stored `id` and `timestamp`); on success clears the
editing target and navigates to `DASHBOARD`.  A missing document makes
`updateDoc` throw, which is caught and leaves the state unchanged. -/
def handleUpdateExpense (s : AppState) (es : EStore) (amount : Int)
    (item : ExpenseItem) (description : String) : AppState × EStore :=
  match s.user, s.editingExpense with
  | some u, some e =>
      let coll := getColl es u.uid
      match alookup coll e.id with
      | none => (s, es)
      | some d =>
          ({ s with editingExpense := none, view := AppView.DASHBOARD },
           setColl es u.uid
             (aset coll e.id
               { d with
                   amount := amount
                   item := item
                   description := description
                   userId := u.uid }))
  | _, _ => (s, es)

/-- `handleDeleteExpense` (both variants): requires a user; after the
user confirms, deletes `users/{uid}/expenses/{id}`.  The controller state is
never changed. -/
def handleDeleteExpense (s : AppState) (es : EStore) (confirmed : Bool)
    (id : String) : AppState × EStore :=
  match s.user with
  | none => (s, es)
  | some u =>
      if confirmed then
        (s, setColl es u.uid (aremove (getColl es u.uid) id))
      else
        (s, es)

/-- Variant 1's `handleUpdateBudget`: requires a user; `updateDoc` of
`monthlyBudget` on `users/{uid}`, then the local budget is set; a failure
(document missing) is only logged and changes nothing. -/
def handleUpdateBudgetV1 (s : AppState) (ps : PStore) (newBudget : Int) :
    AppState × PStore :=
  match s.user with
  | none => (s, ps)
  | some u =>
      match alookup ps u.uid with
      | none => (s, ps)
      | some d =>
          ({ s with budget := newBudget },
           aset ps u.uid { d with monthlyBudget := some newBudget })

/-- An empty profile document (no fields present), the base of a
merge-write into an absent document. -/
def emptyProfile : ProfileDoc :=
  { email := none
    displayName := none
    photoURL := none
    createdAt := none
    lastLogin := none
    monthlyBudget := none }

/-- Variant 2's `handleUpdateBudget`: requires a user; `updateDoc` of
`monthlyBudget`, then the local budget is set; on a `not-found` failure it
falls back to `setDoc(..., {monthlyBudget, email}, {merge: true})`. -/
def handleUpdateBudgetV2 (s : AppState) (ps : PStore) (newBudget : Int) :
    AppState × PStore :=
  match s.user with
  | none => (s, ps)
  | some u =>
      match alookup ps u.uid with
      | none =>
          (s, aset ps u.uid
                { emptyProfile with
                    monthlyBudget := some newBudget
                    email := some u.email })
      | some d =>
          ({ s with budget := newBudget },
           aset ps u.uid { d with monthlyBudget := some newBudget })

/-- Variant 1's timestamp normalization in the expenses snapshot callback:
a number is kept, an object with `seconds` becomes `seconds * 1000`, an
object with `toDate` becomes its date's epoch milliseconds, anything else
(including a string) falls back to `Date.now()`. -/
def normalizeTsV1 (now : Int) : TsValue → Int
  | TsValue.num n => n
  | TsValue.secondsObj sec => sec * 1000
  | TsValue.toDateObj m => m
  | TsValue.str _ => now
  | TsValue.other => now

/-- Variant 2's normalization of a legacy textual timestamp before handing
it to the JS `Date` constructor: CJK date markers are rewritten
(`年`/`月` to `-`, `日` removed, evening/afternoon markers to `PM`,
morning markers to `AM`), a trailing `[...]` suffix is cut, and the result
is trimmed. -/
def normalizeDateString (s : String) : String :=
  (((((((s.replace "年" "-").replace "月" "-").replace "日" "").replace
        "晚上" " PM ").replace "下午" " PM ").replace "早上" " AM ").replace
      "上午" " AM ").splitOn "[" |>.headD "" |>.trim

/-- Variant 2's timestamp normalization: like variant 1's, but a string is
normalized and parsed by the JS `Date` constructor (modelled by the
`parseDate` oracle, `none` meaning `NaN`), falling back to `Date.now()`
only when parsing fails. -/
def normalizeTsV2 (parseDate : String → Option Int) (now : Int) :
    TsValue → Int
  | TsValue.num n => n
  | TsValue.secondsObj sec => sec * 1000
  | TsValue.toDateObj m => m
  | TsValue.str s =>
      match parseDate (normalizeDateString s) with
      | some parsed => parsed
      | none => now
  | TsValue.other => now

/-- Variant 1's mapping of one snapshot document to an `Expense`:
`{...data, id: fbDoc.id, item: data.item || OTHER, timestamp: normalized}`. -/
def convertV1 (now : Int) (d : RawDoc) : Expense :=
  { id := d.docId
    userId := d.userId
    amount := d.amount
    item := d.item.getD ExpenseItem.OTHER
    description := d.description
    timestamp := normalizeTsV1 now d.timestamp }

/-- Variant 2's mapping of one snapshot document to an `Expense`. -/
def convertV2 (parseDate : String → Option Int) (now : Int) (d : RawDoc) :
    Expense :=
  { id := d.docId
    userId := d.userId
    amount := d.amount
    item := d.item.getD ExpenseItem.OTHER
    description := d.description
    timestamp := normalizeTsV2 parseDate now d.timestamp }

/-- Stable insertion into a list sorted by `timestamp` descending. -/
def insertDesc (e : Expense) : List Expense → List Expense
  | [] => [e]
  | x :: xs =>
      if e.timestamp ≤ x.timestamp then x :: insertDesc e xs
      else e :: x :: xs

/-- Model of `[...].sort((a, b) => b.timestamp - a.timestamp)`: a stable
sort by `timestamp` descending. -/
def sortByTsDesc : List Expense → List Expense
  | [] => []
  | x :: xs => insertDesc x (sortByTsDesc xs)

/-- Variant 1's expenses snapshot callback: replaces the whole expense list
with the mapped snapshot documents. -/
def onExpensesSnapshotV1 (s : AppState) (now : Int) (docs : List RawDoc) :
    AppState :=
  { s with expenses := docs.map (convertV1 now) }

/-- Variant 2's expenses snapshot callback: maps the snapshot documents and
re-sorts them by timestamp descending before replacing the list. -/
def onExpensesSnapshotV2 (s : AppState) (parseDate : String → Option Int)
    (now : Int) (docs : List RawDoc) : AppState :=
  { s with expenses := sortByTsDesc (docs.map (convertV2 parseDate now)) }

/-- The profile-document snapshot callback (both variants): if the snapshot
exists and carries a `monthlyBudget`, replace the budget with it; otherwise
change nothing. -/
def onProfileSnapshot (s : AppState) (snap : Option ProfileDoc) : AppState :=
  match snap with
  | some d =>
      match d.monthlyBudget with
      | some b => { s with budget := b }
      | none => s
  | none => s

/-- The literal the expense-subscription error handler searches the error
message for. -/
def firebaseUrlHead : List Char := "https://console.firebase.google.com".toList

/-- Characters the regex class `[^\s]` accepts. -/
def nonspace (c : Char) : Bool := !c.isWhitespace

/-- Split a character list at the first occurrence of `p`:
`some (pre, suf)` with the original list `pre ++ suf` and `p` a prefix of
`suf`; `none` when `p` does not occur. -/
def splitAtFirst (p : List Char) : List Char → Option (List Char × List Char)
  | [] => none
  | c :: rest =>
      if p.isPrefixOf (c :: rest) then some ([], c :: rest)
      else
        match splitAtFirst p rest with
        | some (pre, suf) => some (c :: pre, suf)
        | none => none

/-- The expense-subscription error callback (identical in both variants):
if the message contains the console URL literal, store the maximal
non-whitespace run starting at its first occurrence as `indexUrl` and set
`dbError` to `INDEX_REQUIRED`; otherwise `permission-denied` becomes
`PERMISSION_DENIED` and any other error stores its message. -/
def onExpensesError (s : AppState) (code : String) (message : String) :
    AppState :=
  match splitAtFirst firebaseUrlHead message.data with
  | some (_, suf) =>
      { s with
          indexUrl := some (String.mk (suf.takeWhile nonspace))
          dbError := some "INDEX_REQUIRED" }
  | none =>
      { s with
          dbError :=
            some (if code = "permission-denied" then "PERMISSION_DENIED"
                  else message) }

/-- The raw snapshot document delivered for a stored expense document:
`fbDoc.id` is the store key, the data fields are the stored ones. -/
def rawOf (k : String) (d : StoredExpense) : RawDoc :=
  { docId := k
    userId := d.userId
    amount := d.amount
    item := some d.item
    description := d.description
    timestamp := d.timestamp }

/-- The raw documents of an expense-collection snapshot. -/
def snapshotDocs (coll : List (String × StoredExpense)) : List RawDoc :=
  coll.map (fun kd => rawOf kd.1 kd.2)

/-! ### Concrete sample values used by counterexamples and witnesses -/

/-- A sample identity-provider user. -/
def sampleFb : FbUser :=
  { uid := "u1", email := some "a@b.c", displayName := none, photoURL := none }

/-- A sample expense record. -/
def sampleExpense : Expense :=
  { id := "e1"
    userId := "u1"
    amount := 50
    item := ExpenseItem.FOOD
    description := "lunch"
    timestamp := 10 }

/-- A reachable authenticated state with an active editing target: start,
sign-in notification, then `startEdit` on a record. -/
def editingStateV1 : AppState :=
  startEdit (authCallbackV1 initialState [] (some sampleFb) 1000).1
    sampleExpense

/-- The editing-target/screen equivalence claimed as an invariant:
`editingExpense` is non-null iff the view is `EDIT_EXPENSE`. -/
def editInv (s : AppState) : Prop :=
  s.editingExpense.isSome = true ↔ s.view = AppView.EDIT_EXPENSE

instance (s : AppState) : Decidable (editInv s) :=
  inferInstanceAs (Decidable (_ ↔ _))

/-- A sample pre-existing profile document. -/
def sampleProfile : ProfileDoc :=
  { email := some "a@b.c"
    displayName := none
    photoURL := none
    createdAt := some 5
    lastLogin := some 6
    monthlyBudget := some 7000 }

/-! ### Generic store and list lemmas -/

theorem alookup_aset_self {α : Type} (l : List (String × α)) (k : String)
    (v : α) : alookup (aset l k v) k = some v := by
  induction l with
  | nil => simp [aset, alookup]
  | cons hd tl ih =>
      obtain ⟨k0, v0⟩ := hd
      by_cases hk : k0 = k
      · subst hk
        simp [aset, alookup]
      · simp [aset, alookup, hk, ih]

theorem alookup_none_forall {α : Type} {l : List (String × α)} {key : String}
    (h : alookup l key = none) : ∀ kv ∈ l, kv.1 ≠ key := by
  induction l with
  | nil => simp
  | cons hd tl ih =>
      obtain ⟨k0, v0⟩ := hd
      by_cases hk : k0 = key
      · simp [alookup, hk] at h
      · intro kv hkv
        rcases List.mem_cons.mp hkv with h1 | h2
        · subst h1
          simpa using hk
        · have h' : alookup tl key = none := by
            simpa [alookup, hk] using h
          exact ih h' kv h2

theorem aset_eq_append {α : Type} {l : List (String × α)} {key : String}
    (h : alookup l key = none) (v : α) : aset l key v = l ++ [(key, v)] := by
  induction l with
  | nil => simp [aset]
  | cons hd tl ih =>
      obtain ⟨k0, v0⟩ := hd
      by_cases hk : k0 = key
      · simp [alookup, hk] at h
      · have h' : alookup tl key = none := by
          simpa [alookup, hk] using h
        simp [aset, hk, ih h']

theorem insertDesc_perm (e : Expense) (l : List Expense) :
    (insertDesc e l).Perm (e :: l) := by
  induction l with
  | nil => simp [insertDesc]
  | cons x xs ih =>
      by_cases h : e.timestamp ≤ x.timestamp
      · simp only [insertDesc, if_pos h]
        exact (ih.cons x).trans (List.Perm.swap e x xs)
      · simp [insertDesc, if_neg h]

theorem sortByTsDesc_perm (l : List Expense) : (sortByTsDesc l).Perm l := by
  induction l with
  | nil => simp [sortByTsDesc]
  | cons x xs ih =>
      exact (insertDesc_perm x (sortByTsDesc xs)).trans (ih.cons x)

theorem splitAtFirst_eq {p : List Char} :
    ∀ {l pre suf : List Char}, splitAtFirst p l = some (pre, suf) →
      l = pre ++ suf ∧ p.isPrefixOf suf = true := by
  intro l
  induction l with
  | nil => intro pre suf h; simp [splitAtFirst] at h
  | cons c rest ih =>
      intro pre suf h
      by_cases hp : p.isPrefixOf (c :: rest) = true
      · simp only [splitAtFirst, if_pos hp, Option.some.injEq, Prod.mk.injEq] at h
        obtain ⟨h1, h2⟩ := h
        subst h1; subst h2
        exact ⟨rfl, hp⟩
      · simp only [splitAtFirst, if_neg hp] at h
        cases hrec : splitAtFirst p rest with
        | none => rw [hrec] at h; simp at h
        | some pr =>
            obtain ⟨pre', suf'⟩ := pr
            rw [hrec] at h
            simp only [Option.some.injEq, Prod.mk.injEq] at h
            obtain ⟨h1, h2⟩ := h
            subst h1; subst h2
            obtain ⟨he, hpre⟩ := ih hrec
            exact ⟨by simp [he], hpre⟩

theorem splitAtFirst_isSome {p : List Char} (hp : p ≠ []) :
    ∀ {a l b : List Char}, l = a ++ p ++ b →
      (splitAtFirst p l).isSome = true := by
  intro a
  induction a with
  | nil =>
      intro l b h
      simp only [List.nil_append] at h
      subst h
      cases p with
      | nil => exact absurd rfl hp
      | cons q p' =>
          have hpre : (q :: p').isPrefixOf (q :: p' ++ b) = true := by
            rw [List.isPrefixOf_iff_prefix]
            exact ⟨b, by simp⟩
          simp [splitAtFirst, hpre]
  | cons c a' ih =>
      intro l b h
      subst h
      simp only [List.cons_append]
      by_cases hpre : p.isPrefixOf (c :: (a' ++ p ++ b)) = true
      · simp only [splitAtFirst]
        split
        · rfl
        · rename_i hcond
          exact absurd (by simpa using List.isPrefixOf_iff_prefix.mp hpre)
            hcond
      · have hrec := ih (l := a' ++ p ++ b) (b := b) rfl
        simp only [splitAtFirst, if_neg hpre]
        cases hr : splitAtFirst p (a' ++ p ++ b) with
        | none => rw [hr] at hrec; simp at hrec
        | some pr => obtain ⟨x, y⟩ := pr; simp

theorem isPrefixOf_takeWhile {q : Char → Bool} :
    ∀ {p l : List Char}, (∀ c ∈ p, q c = true) → p.isPrefixOf l = true →
      p.isPrefixOf (l.takeWhile q) = true := by
  intro p
  induction p with
  | nil => intro l _ _; simp [List.isPrefixOf]
  | cons c p' ih =>
      intro l hq hpre
      cases l with
      | nil => simp [List.isPrefixOf] at hpre
      | cons d l' =>
          simp only [List.isPrefixOf, Bool.and_eq_true, beq_iff_eq] at hpre
          obtain ⟨hcd, hrest⟩ := hpre
          have hqd : q d = true := by
            rw [← hcd]
            exact hq c (List.mem_cons_self c p')
          rw [List.takeWhile_cons_of_pos hqd]
          simp only [List.isPrefixOf, Bool.and_eq_true, beq_iff_eq]
          exact ⟨hcd, ih (fun x hx => hq x (List.mem_cons_of_mem c hx)) hrest⟩

theorem dropWhile_head_not {q : Char → Bool} :
    ∀ {l : List Char} {c : Char}, (l.dropWhile q).head? = some c →
      q c = false := by
  intro l
  induction l with
  | nil => intro c h; simp [List.dropWhile] at h
  | cons d l' ih =>
      intro c h
      by_cases hq : q d = true
      · rw [List.dropWhile_cons_of_pos hq] at h
        exact ih h
      · rw [List.dropWhile_cons_of_neg (by simpa using hq)] at h
        simp only [List.head?_cons, Option.some.injEq] at h
        subst h
        simpa using hq

/-- The post-sign-in view updater never yields `EDIT_EXPENSE`. -/
theorem authViewUpdateV1_ne_edit (v : AppView) :
    authViewUpdateV1 v ≠ AppView.EDIT_EXPENSE := by
  cases v <;> decide

/-- Case characterization of the post-sign-in view updater. -/
theorem authViewUpdateV1_spec (v : AppView) :
    ((v = AppView.LOGIN ∨ v = AppView.REGISTER) →
        authViewUpdateV1 v = AppView.WELCOME)
    ∧ (v = AppView.WELCOME → authViewUpdateV1 v = AppView.WELCOME)
    ∧ (v ≠ AppView.LOGIN → v ≠ AppView.REGISTER → v ≠ AppView.WELCOME →
        authViewUpdateV1 v = AppView.DASHBOARD)
    ∧ authViewUpdateV1 v ≠ AppView.LOGIN
    ∧ authViewUpdateV1 v ≠ AppView.REGISTER := by
  cases v <;> decide

/-- C1 (counterexample): the claim "immediately after a transition to
signed-out the Editing Target is null" fails on the code at an explicit
reachable input.  From the reachable state `editingStateV1` (sign-in, then
`startEdit` on a record), the identity provider's null-identity
notification resets the user, the expense list and the view, but leaves the
editing target equal to `some sampleExpense`, not `none`. -/
theorem c1_counterexample :
    (authCallbackV1 editingStateV1 [] none 2000).1.view = AppView.LOGIN
    ∧ (authCallbackV1 editingStateV1 [] none 2000).1.user = none
    ∧ (authCallbackV1 editingStateV1 [] none 2000).1.expenses = []
    ∧ (authCallbackV1 editingStateV1 [] none 2000).1.editingExpense
        = some sampleExpense
    ∧ (authCallbackV1 editingStateV1 [] none 2000).1.editingExpense
        ≠ none := by
  refine ⟨rfl, rfl, rfl, rfl, ?_⟩
  intro h
  rw [show (authCallbackV1 editingStateV1 [] none 2000).1.editingExpense
        = some sampleExpense from rfl] at h
  exact Option.noConfusion h

/-- C1 (amended): on every transition to signed-out (the identity provider
reporting a null identity, which explicit sign-out funnels into), in both
variants, the Identity becomes null, the Expense Record list becomes empty
and the Screen resets to LOGIN; the Editing Target however is left
unchanged (it is not cleared). -/
theorem c1_amended (s : AppState) (ps : PStore) (now : Int) :
    ((authCallbackV1 s ps none now).1.user = none
      ∧ (authCallbackV1 s ps none now).1.expenses = []
      ∧ (authCallbackV1 s ps none now).1.view = AppView.LOGIN
      ∧ (authCallbackV1 s ps none now).1.editingExpense = s.editingExpense)
    ∧ ((authCallbackV2 s ps none now).1.user = none
      ∧ (authCallbackV2 s ps none now).1.expenses = []
      ∧ (authCallbackV2 s ps none now).1.view = AppView.LOGIN
      ∧ (authCallbackV2 s ps none now).1.editingExpense
          = s.editingExpense) :=
  ⟨⟨rfl, rfl, rfl, rfl⟩, ⟨rfl, rfl, rfl, rfl⟩⟩

/-- C2 (counterexample): the editing-target/screen equivalence is not
preserved by every exposed callback.  In the reachable state
`editingStateV1` the equivalence holds, but after the identity provider's
null-identity notification the view is LOGIN while the editing target is
still set, so the equivalence fails. -/
theorem c2_counterexample :
    editInv editingStateV1
    ∧ ¬ editInv (authCallbackV1 editingStateV1 [] none 2000).1 := by
  constructor
  · decide
  · decide

/-- C2 (amended): the editing-target/screen equivalence is established or
preserved by `handleNavigate` with a non-`EDIT_EXPENSE` target (and by any
navigation when a target is already set), by `startEdit`, and by the
mutation completions (`handleUpdateExpense`, `handleDeleteExpense`,
`handleUpdateBudget`); `handleAddExpense` and the identity-change handler
preserve it only from states whose Editing Target is null — from an editing
state, a sign-in or sign-out notification moves the Screen away from
`EDIT_EXPENSE` but leaves the stale Editing Target set, and
`handleNavigate` to `EDIT_EXPENSE` without a prior `startEdit` enters
`EDIT_EXPENSE` with a null target. -/
theorem c2_amended :
    (∀ (s : AppState) (v : AppView), v ≠ AppView.EDIT_EXPENSE →
        editInv (handleNavigate s v))
    ∧ (∀ (s : AppState) (v : AppView), s.editingExpense.isSome = true →
        editInv (handleNavigate s v))
    ∧ (∀ (s : AppState) (e : Expense), editInv (startEdit s e))
    ∧ (∀ (s : AppState) (es : EStore) (a : Int) (it : ExpenseItem)
        (de : String), editInv s →
        editInv (handleUpdateExpense s es a it de).1)
    ∧ (∀ (s : AppState) (es : EStore) (c : Bool) (id : String),
        (handleDeleteExpense s es c id).1 = s)
    ∧ (∀ (s : AppState) (ps : PStore) (v : Int), editInv s →
        editInv (handleUpdateBudgetV1 s ps v).1)
    ∧ (∀ (s : AppState) (es : EStore) (fid : String) (now a : Int)
        (it : ExpenseItem) (de : String), editInv s →
        s.editingExpense = none →
        editInv (handleAddExpense s es fid now a it de).1)
    ∧ (∀ (s : AppState) (ps : PStore) (fb : Option FbUser) (now : Int),
        s.editingExpense = none →
        editInv (authCallbackV1 s ps fb now).1) := by
  refine ⟨?_, ?_, ?_, ?_, ?_, ?_, ?_, ?_⟩
  · intro s v h
    simp [handleNavigate, h, editInv]
  · intro s v h
    by_cases hv : v = AppView.EDIT_EXPENSE
    · subst hv
      simp [handleNavigate, editInv, h]
    · simp [handleNavigate, hv, editInv]
  · intro s e
    simp [startEdit, editInv]
  · intro s es a it de h
    cases hu : s.user with
    | none => simpa [handleUpdateExpense, hu] using h
    | some u =>
        cases he : s.editingExpense with
        | none => simpa [handleUpdateExpense, hu, he] using h
        | some e =>
            cases hl : alookup (getColl es u.uid) e.id with
            | none => simpa [handleUpdateExpense, hu, he, hl] using h
            | some d => simp [handleUpdateExpense, hu, he, hl, editInv]
  · intro s es c id
    cases hu : s.user with
    | none => simp [handleDeleteExpense, hu]
    | some u => cases c <;> simp [handleDeleteExpense, hu]
  · intro s ps v h
    cases hu : s.user with
    | none => simpa [handleUpdateBudgetV1, hu] using h
    | some u =>
        cases hl : alookup ps u.uid with
        | none => simpa [handleUpdateBudgetV1, hu, hl] using h
        | some d =>
            simp only [handleUpdateBudgetV1, hu, hl]
            simpa [editInv] using h
  · intro s es fid now a it de h he
    cases hu : s.user with
    | none => simpa [handleAddExpense, hu] using h
    | some u => simp [handleAddExpense, hu, editInv, he]
  · intro s ps fb now he
    cases fb with
    | some fu => simp [authCallbackV1, editInv, he, authViewUpdateV1_ne_edit]
    | none => simp [authCallbackV1, editInv, he]

/-- Witness for the amended C2 at concrete inputs. -/
theorem c2_amended_witness :
    editInv (handleNavigate editingStateV1 AppView.DASHBOARD)
    ∧ editInv (startEdit initialState sampleExpense)
    ∧ editInv (handleUpdateExpense editingStateV1 [] 7 ExpenseItem.OTHER
        "x").1
    ∧ editInv (authCallbackV1 initialState [] (some sampleFb) 0).1 :=
  ⟨c2_amended.1 editingStateV1 AppView.DASHBOARD (by decide),
   c2_amended.2.2.1 initialState sampleExpense,
   c2_amended.2.2.2.1 editingStateV1 [] 7 ExpenseItem.OTHER "x" (by decide),
   c2_amended.2.2.2.2.2.2.2 initialState [] (some sampleFb) 0 rfl⟩

/-- C3 (counterexample): the claim "if the Screen at the moment of a
sign-in notification is anything other than LOGIN/REGISTER it is left
unchanged" fails at an explicit reachable input: from a signed-out state on
REPORT (reached by `handleNavigate`), the sign-in notification moves the
view to DASHBOARD instead of leaving it on REPORT. -/
theorem c3_counterexample :
    (handleNavigate initialState AppView.REPORT).user = none
    ∧ (handleNavigate initialState AppView.REPORT).view = AppView.REPORT
    ∧ (authCallbackV1 (handleNavigate initialState AppView.REPORT) []
        (some sampleFb) 0).1.view = AppView.DASHBOARD
    ∧ (authCallbackV1 (handleNavigate initialState AppView.REPORT) []
        (some sampleFb) 0).1.view ≠ AppView.REPORT := by
  refine ⟨rfl, rfl, rfl, ?_⟩
  decide

/-- C3 (amended): on a sign-in notification in variant 1, a Screen of
LOGIN or REGISTER advances to WELCOME, a Screen of WELCOME stays WELCOME,
and every other Screen becomes DASHBOARD; in all cases the Screen
afterwards is never LOGIN or REGISTER. -/
theorem c3_amended (s : AppState) (ps : PStore) (fu : FbUser) (now : Int) :
    (authCallbackV1 s ps (some fu) now).1.view = authViewUpdateV1 s.view
    ∧ ((s.view = AppView.LOGIN ∨ s.view = AppView.REGISTER) →
        (authCallbackV1 s ps (some fu) now).1.view = AppView.WELCOME)
    ∧ (s.view = AppView.WELCOME →
        (authCallbackV1 s ps (some fu) now).1.view = AppView.WELCOME)
    ∧ (s.view ≠ AppView.LOGIN → s.view ≠ AppView.REGISTER →
        s.view ≠ AppView.WELCOME →
        (authCallbackV1 s ps (some fu) now).1.view = AppView.DASHBOARD)
    ∧ (authCallbackV1 s ps (some fu) now).1.view ≠ AppView.LOGIN
    ∧ (authCallbackV1 s ps (some fu) now).1.view ≠ AppView.REGISTER := by
  have h := authViewUpdateV1_spec s.view
  exact ⟨rfl, h.1, h.2.1, h.2.2.1, h.2.2.2.1, h.2.2.2.2⟩

/-- Witness for the amended C3 at concrete inputs. -/
theorem c3_amended_witness :
    (authCallbackV1 initialState [] (some sampleFb) 0).1.view
        = AppView.WELCOME
    ∧ (authCallbackV1 (handleNavigate initialState AppView.REPORT) []
        (some sampleFb) 0).1.view = AppView.DASHBOARD :=
  ⟨(c3_amended initialState [] sampleFb 0).2.1 (Or.inl rfl),
   (c3_amended (handleNavigate initialState AppView.REPORT) [] sampleFb
      0).2.2.2.1 (by decide) (by decide) (by decide)⟩

/-- C4 (confirmed): the profile-ensure step of the sign-in notification.
In variant 1, an existing profile document is updated only in its
`lastLogin` field — `createdAt`, `monthlyBudget`, `email`, `displayName`
and `photoURL` are unchanged — and an absent profile is created with
`monthlyBudget = 10000` and `createdAt = lastLogin = now`.  Variant 2
leaves an existing profile entirely unchanged and creates an absent one
the same way.  The first conjunct ties the step to the notification
callback itself. -/
theorem c4_profile_ensure (ps : PStore) (fu : FbUser) (now : Int) :
    (authCallbackV1 initialState ps (some fu) now).2
        = ensureProfileV1 fu now ps
    ∧ (∀ d, alookup ps fu.uid = some d →
        ∃ d', alookup (ensureProfileV1 fu now ps) fu.uid = some d'
          ∧ d'.lastLogin = some now
          ∧ d'.createdAt = d.createdAt
          ∧ d'.monthlyBudget = d.monthlyBudget
          ∧ d'.email = d.email
          ∧ d'.displayName = d.displayName
          ∧ d'.photoURL = d.photoURL)
    ∧ (alookup ps fu.uid = none →
        alookup (ensureProfileV1 fu now ps) fu.uid =
          some { email := fu.email
                 displayName := fu.displayName
                 photoURL := fu.photoURL
                 createdAt := some now
                 lastLogin := some now
                 monthlyBudget := some 10000 })
    ∧ (∀ d, alookup ps fu.uid = some d → ensureProfileV2 fu now ps = ps)
    ∧ (alookup ps fu.uid = none →
        alookup (ensureProfileV2 fu now ps) fu.uid =
          some { email := fu.email
                 displayName := fu.displayName
                 photoURL := fu.photoURL
                 createdAt := some now
                 lastLogin := some now
                 monthlyBudget := some 10000 }) := by
  refine ⟨rfl, ?_, ?_, ?_, ?_⟩
  · intro d hd
    refine ⟨{ d with lastLogin := some now }, ?_, rfl, rfl, rfl, rfl, rfl,
      rfl⟩
    simp [ensureProfileV1, hd, alookup_aset_self]
  · intro hd
    simp [ensureProfileV1, hd, alookup_aset_self]
  · intro d hd
    simp [ensureProfileV2, hd]
  · intro hd
    simp [ensureProfileV2, hd, alookup_aset_self]

/-- Witness for C4 at concrete inputs: an existing profile keeps its
`createdAt` and `monthlyBudget`, an absent one is created with the
defaults. -/
theorem c4_profile_ensure_witness :
    (∃ d', alookup
        (ensureProfileV1 sampleFb 2000 [("u1", sampleProfile)]) "u1"
          = some d'
      ∧ d'.lastLogin = some 2000
      ∧ d'.createdAt = sampleProfile.createdAt
      ∧ d'.monthlyBudget = sampleProfile.monthlyBudget
      ∧ d'.email = sampleProfile.email
      ∧ d'.displayName = sampleProfile.displayName
      ∧ d'.photoURL = sampleProfile.photoURL)
    ∧ alookup (ensureProfileV1 sampleFb 2000 []) "u1" =
        some { email := some "a@b.c"
               displayName := none
               photoURL := none
               createdAt := some 2000
               lastLogin := some 2000
               monthlyBudget := some 10000 } := by
  constructor
  · exact (c4_profile_ensure [("u1", sampleProfile)] sampleFb 2000).2.1
      sampleProfile rfl
  · exact (c4_profile_ensure [] sampleFb 2000).2.2.1 rfl

/-- C7 (confirmed): variant 2's `handleUpdateBudget` with an authenticated
identity.  When the profile document exists, `monthlyBudget` is updated on
it and the local budget is set; when it is missing, `updateDoc` fails with
not-found and the handler falls back to a merge upsert writing the budget
(and the user's email) at the profile path.  In both cases the profile
document afterwards carries `monthlyBudget = newValue`, so the operation
succeeds even when the profile document is missing. -/
theorem c7_update_budget_fallback (s : AppState) (ps : PStore) (u : User)
    (v : Int) (hu : s.user = some u) :
    (∃ d, alookup (handleUpdateBudgetV2 s ps v).2 u.uid = some d
        ∧ d.monthlyBudget = some v)
    ∧ (∀ d0, alookup ps u.uid = some d0 →
        (handleUpdateBudgetV2 s ps v).2
            = aset ps u.uid { d0 with monthlyBudget := some v }
          ∧ (handleUpdateBudgetV2 s ps v).1 = { s with budget := v })
    ∧ (alookup ps u.uid = none →
        alookup (handleUpdateBudgetV2 s ps v).2 u.uid
            = some { emptyProfile with
                       monthlyBudget := some v
                       email := some u.email }
          ∧ (handleUpdateBudgetV2 s ps v).1 = s) := by
  refine ⟨?_, ?_, ?_⟩
  · cases hl : alookup ps u.uid with
    | none =>
        refine ⟨{ emptyProfile with
                    monthlyBudget := some v
                    email := some u.email }, ?_, rfl⟩
        simp [handleUpdateBudgetV2, hu, hl, alookup_aset_self]
    | some d0 =>
        refine ⟨{ d0 with monthlyBudget := some v }, ?_, rfl⟩
        simp [handleUpdateBudgetV2, hu, hl, alookup_aset_self]
  · intro d0 hl
    constructor
    · simp [handleUpdateBudgetV2, hu, hl]
    · simp [handleUpdateBudgetV2, hu, hl]
  · intro hl
    constructor
    · simp [handleUpdateBudgetV2, hu, hl, alookup_aset_self]
    · simp [handleUpdateBudgetV2, hu, hl]

/-- Witness for C7 at concrete inputs: updating the budget with the
profile document present and with it missing both leave
`monthlyBudget = 5000` on the profile document. -/
theorem c7_update_budget_fallback_witness :
    (∃ d, alookup
        (handleUpdateBudgetV2
          { initialState with user := some (toUser sampleFb) } [] 5000).2
        "u1" = some d ∧ d.monthlyBudget = some 5000)
    ∧ alookup
        (handleUpdateBudgetV2
          { initialState with user := some (toUser sampleFb) } [] 5000).2
        "u1" = some { emptyProfile with
                        monthlyBudget := some 5000
                        email := some "a@b.c" } :=
  ⟨(c7_update_budget_fallback
      { initialState with user := some (toUser sampleFb) } [] (toUser sampleFb)
      5000 rfl).1,
   ((c7_update_budget_fallback
      { initialState with user := some (toUser sampleFb) } [] (toUser sampleFb)
      5000 rfl).2.2 rfl).1⟩

/-- C5 (confirmed): variant 2's expense-snapshot mapping is total — the
resulting list has one record per snapshot document (no snapshot is
rejected), every resulting record is the conversion of a snapshot
document, and the conversion normalizes the stored timestamp to a numeric
epoch by cases: a number is kept, a `seconds` object becomes
`seconds * 1000`, a `toDate` object becomes its date's epoch milliseconds,
a textual value is normalized and parsed (the JS `Date` parser modelled by
the `parseDate` oracle), and an unparseable or unrecognized value falls
back to the current time. -/
theorem c5_snapshot_normalization (parseDate : String → Option Int)
    (now : Int) (docs : List RawDoc) (s : AppState) :
    (onExpensesSnapshotV2 s parseDate now docs).expenses.length = docs.length
    ∧ (∀ e ∈ (onExpensesSnapshotV2 s parseDate now docs).expenses,
        ∃ d ∈ docs, e = convertV2 parseDate now d)
    ∧ (∀ d : RawDoc, (convertV2 parseDate now d).timestamp
        = normalizeTsV2 parseDate now d.timestamp)
    ∧ (∀ n : Int, normalizeTsV2 parseDate now (TsValue.num n) = n)
    ∧ (∀ sec : Int,
        normalizeTsV2 parseDate now (TsValue.secondsObj sec) = sec * 1000)
    ∧ (∀ m : Int, normalizeTsV2 parseDate now (TsValue.toDateObj m) = m)
    ∧ (∀ (t : String) (p : Int), parseDate (normalizeDateString t) = some p →
        normalizeTsV2 parseDate now (TsValue.str t) = p)
    ∧ (∀ t : String, parseDate (normalizeDateString t) = none →
        normalizeTsV2 parseDate now (TsValue.str t) = now)
    ∧ normalizeTsV2 parseDate now TsValue.other = now := by
  refine ⟨?_, ?_, fun d => rfl, fun n => rfl, fun sec => rfl, fun m => rfl,
    ?_, ?_, rfl⟩
  · have hp := sortByTsDesc_perm (docs.map (convertV2 parseDate now))
    simp only [onExpensesSnapshotV2]
    rw [hp.length_eq, List.length_map]
  · intro e he
    have hp := sortByTsDesc_perm (docs.map (convertV2 parseDate now))
    have hm : e ∈ docs.map (convertV2 parseDate now) := by
      apply hp.mem_iff.mp
      simpa [onExpensesSnapshotV2] using he
    obtain ⟨d, hd, rfl⟩ := List.mem_map.mp hm
    exact ⟨d, hd, rfl⟩
  · intro t p h
    simp [normalizeTsV2, h]
  · intro t h
    simp [normalizeTsV2, h]

/-- Witness for C5 at concrete inputs: a parseable legacy textual
timestamp takes the parsed value, an unparseable one falls back to now. -/
theorem c5_snapshot_normalization_witness :
    normalizeTsV2 (fun _ => some 77) 999 (TsValue.str "2024年1月5日") = 77
    ∧ normalizeTsV2 (fun _ => none) 999 (TsValue.str "garbage") = 999 :=
  ⟨(c5_snapshot_normalization (fun _ => some 77) 999 []
      initialState).2.2.2.2.2.2.1 "2024年1月5日" 77 rfl,
   (c5_snapshot_normalization (fun _ => none) 999 []
      initialState).2.2.2.2.2.2.2.1 "garbage" rfl⟩

/-- C6 (confirmed): the expense-subscription error handler.  If the error
message contains the console URL literal, the sync-error condition becomes
`INDEX_REQUIRED` carrying exactly the maximal non-whitespace run of the
message that starts at the literal's first occurrence (a verbatim
substring of the message, as the decomposition conjuncts state); otherwise
a `permission-denied` code yields `PERMISSION_DENIED` and any other error
stores its message.  The handler is a total function into controller
state, so no exception is propagated. -/
theorem c6_sync_error_taxonomy (s : AppState) (code message : String) :
    (∀ pre suf,
        splitAtFirst firebaseUrlHead message.data = some (pre, suf) →
        ((onExpensesError s code message).dbError = some "INDEX_REQUIRED"
          ∧ (onExpensesError s code message).indexUrl
              = some (String.mk (suf.takeWhile nonspace))
          ∧ message.data
              = pre ++ (suf.takeWhile nonspace ++ suf.dropWhile nonspace)
          ∧ firebaseUrlHead.isPrefixOf (suf.takeWhile nonspace) = true
          ∧ (∀ c ∈ suf.takeWhile nonspace, nonspace c = true)
          ∧ (∀ c, (suf.dropWhile nonspace).head? = some c →
              c.isWhitespace = true)))
    ∧ ((∃ pre post, message.data = pre ++ firebaseUrlHead ++ post) →
        (splitAtFirst firebaseUrlHead message.data).isSome = true)
    ∧ (splitAtFirst firebaseUrlHead message.data = none →
        code = "permission-denied" →
        (onExpensesError s code message).dbError = some "PERMISSION_DENIED")
    ∧ (splitAtFirst firebaseUrlHead message.data = none →
        code ≠ "permission-denied" →
        (onExpensesError s code message).dbError = some message) := by
  refine ⟨?_, ?_, ?_, ?_⟩
  · intro pre suf h
    obtain ⟨heq, hpre⟩ := splitAtFirst_eq h
    refine ⟨?_, ?_, ?_, ?_, ?_, ?_⟩
    · simp [onExpensesError, h]
    · simp [onExpensesError, h]
    · rw [List.takeWhile_append_dropWhile]
      exact heq
    · exact isPrefixOf_takeWhile (by decide) hpre
    · intro c hc
      exact List.mem_takeWhile_imp hc
    · intro c hc
      have hns := dropWhile_head_not hc
      simpa [nonspace] using hns
  · rintro ⟨pre, post, h⟩
    exact splitAtFirst_isSome (by decide) h
  · intro h hc
    simp [onExpensesError, h, hc]
  · intro h hc
    simp [onExpensesError, h, hc]

/-- Witness for C6 at concrete inputs: an index error carrying a console
URL, and a permission error. -/
theorem c6_sync_error_taxonomy_witness :
    (onExpensesError initialState "x"
        "see https://console.firebase.google.com/abc def").dbError
      = some "INDEX_REQUIRED"
    ∧ (onExpensesError initialState "x"
        "see https://console.firebase.google.com/abc def").indexUrl
      = some "https://console.firebase.google.com/abc"
    ∧ (onExpensesError initialState "permission-denied" "nope").dbError
      = some "PERMISSION_DENIED" := by
  have h1 := (c6_sync_error_taxonomy initialState "x"
      "see https://console.firebase.google.com/abc def").1
    ("see ").data ("https://console.firebase.google.com/abc def").data
    (by decide)
  refine ⟨h1.1, ?_, ?_⟩
  · rw [h1.2.1]
    decide
  · exact (c6_sync_error_taxonomy initialState "permission-denied"
      "nope").2.2.1 (by decide) rfl

/-- Reading back the collection just written for a user. -/
theorem getColl_setColl (es : EStore) (uid : String)
    (coll : List (String × StoredExpense)) :
    getColl (setColl es uid coll) uid = coll := by
  simp [getColl, setColl, alookup_aset_self]

/-- Filtering a delivered snapshot by record id is filtering the stored
collection by key. -/
theorem deliver_filter_key (coll : List (String × StoredExpense)) (t : Int)
    (key : String) :
    ((snapshotDocs coll).map (convertV1 t)).filter (fun e => e.id == key)
      = (coll.filter (fun kd => kd.1 == key)).map
          (fun kd => convertV1 t (rawOf kd.1 kd.2)) := by
  induction coll with
  | nil => rfl
  | cons kd rest ih =>
      obtain ⟨k, d⟩ := kd
      have h1 : (snapshotDocs ((k, d) :: rest)).map (convertV1 t)
          = convertV1 t (rawOf k d) :: (snapshotDocs rest).map (convertV1 t) :=
        rfl
      have h2 : ((convertV1 t (rawOf k d)).id == key) = (k == key) := rfl
      by_cases hk : (k == key) = true
      · simp only [h1, List.filter_cons, h2, hk, if_true, List.map_cons]
        rw [ih]
      · simp only [h1, List.filter_cons, h2, hk, if_false, Bool.false_eq_true,
          ite_false]
        rw [ih]

/-- A key that does not occur in a collection matches no entry. -/
theorem filter_key_eq_nil {coll : List (String × StoredExpense)}
    {key : String} (h : alookup coll key = none) :
    coll.filter (fun kd => kd.1 == key) = [] := by
  induction coll with
  | nil => rfl
  | cons kd rest ih =>
      obtain ⟨k, d⟩ := kd
      by_cases hk : k = key
      · simp [alookup, hk] at h
      · have h' : alookup rest key = none := by
          simpa [alookup, hk] using h
        simp [List.filter_cons, hk, ih h']

/-- After a point delete of a key, no entry with that key remains. -/
theorem filter_key_aremove (coll : List (String × StoredExpense))
    (key : String) :
    (aremove coll key).filter (fun kd => kd.1 == key) = [] := by
  induction coll with
  | nil => rfl
  | cons kd rest ih =>
      obtain ⟨k, d⟩ := kd
      by_cases hk : k = key
      · rw [show aremove ((k, d) :: rest) key = aremove rest key by
            simp [aremove, List.filter_cons, hk]]
        exact ih
      · rw [show aremove ((k, d) :: rest) key = (k, d) :: aremove rest key by
            simp [aremove, List.filter_cons, hk]]
        rw [List.filter_cons, if_neg (by simp [hk])]
        exact ih

/-- C8 (confirmed): the add/delete round trip.  With an authenticated
identity and a fresh store-generated key, `handleAddExpense` navigates to
DASHBOARD and writes `{id, ownerId, amount, category, description,
occurredAt = now}`, so a snapshot of the user's collection afterwards
contains exactly one record with the new id, carrying exactly those field
values and `occurredAt` equal to the call's time; a confirmed
`handleDeleteExpense` of that id then leaves zero records with that id in
the next snapshot. -/
theorem c8_add_delete_roundtrip (s : AppState) (es : EStore) (u : User)
    (freshId : String) (now now2 amount : Int) (item : ExpenseItem)
    (de : String) (hu : s.user = some u)
    (hfresh : alookup (getColl es u.uid) freshId = none) :
    (handleAddExpense s es freshId now amount item de).1.view
        = AppView.DASHBOARD
    ∧ ((snapshotDocs
          (getColl (handleAddExpense s es freshId now amount item de).2
            u.uid)).map (convertV1 now2)).filter (fun e => e.id == freshId)
        = [{ id := freshId
             userId := u.uid
             amount := amount
             item := item
             description := de
             timestamp := now }]
    ∧ ((snapshotDocs
          (getColl
            (handleDeleteExpense
              (handleAddExpense s es freshId now amount item de).1
              (handleAddExpense s es freshId now amount item de).2
              true freshId).2
            u.uid)).map (convertV1 now2)).filter (fun e => e.id == freshId)
        = [] := by
  have hadd : handleAddExpense s es freshId now amount item de
      = ({ s with view := AppView.DASHBOARD },
         setColl es u.uid
           (aset (getColl es u.uid) freshId
             { id := freshId
               userId := u.uid
               amount := amount
               item := item
               description := de
               timestamp := TsValue.num now })) := by
    simp [handleAddExpense, hu]
  have hcoll1 : getColl (handleAddExpense s es freshId now amount item de).2
      u.uid
      = getColl es u.uid ++
          [(freshId,
            { id := freshId
              userId := u.uid
              amount := amount
              item := item
              description := de
              timestamp := TsValue.num now })] := by
    rw [hadd]
    rw [getColl_setColl, aset_eq_append hfresh]
  refine ⟨by rw [hadd], ?_, ?_⟩
  · rw [hcoll1, deliver_filter_key, List.filter_append,
      filter_key_eq_nil hfresh]
    simp [List.filter_cons, convertV1, rawOf, normalizeTsV1]
  · have hu1 : (handleAddExpense s es freshId now amount item de).1.user
        = some u := by
      rw [hadd]
      exact hu
    have hdel : (handleDeleteExpense
        (handleAddExpense s es freshId now amount item de).1
        (handleAddExpense s es freshId now amount item de).2
        true freshId).2
        = setColl (handleAddExpense s es freshId now amount item de).2 u.uid
            (aremove
              (getColl (handleAddExpense s es freshId now amount item de).2
                u.uid)
              freshId) := by
      simp [handleDeleteExpense, hu1]
    rw [hdel, getColl_setColl, deliver_filter_key, filter_key_aremove,
      List.map_nil]

/-- Witness for C8 at concrete inputs: adding an expense for the sample
user with a fresh key and then deleting it. -/
theorem c8_add_delete_roundtrip_witness :
    (handleAddExpense { initialState with user := some (toUser sampleFb) }
        [] "k9" 500 100 ExpenseItem.FOOD "lunch").1.view = AppView.DASHBOARD
    ∧ ((snapshotDocs
          (getColl (handleAddExpense
              { initialState with user := some (toUser sampleFb) }
              [] "k9" 500 100 ExpenseItem.FOOD "lunch").2
            "u1")).map (convertV1 600)).filter (fun e => e.id == "k9")
        = [{ id := "k9"
             userId := "u1"
             amount := 100
             item := ExpenseItem.FOOD
             description := "lunch"
             timestamp := 500 }] := by
  have h := c8_add_delete_roundtrip
    { initialState with user := some (toUser sampleFb) } [] (toUser sampleFb)
    "k9" 500 600 100 ExpenseItem.FOOD "lunch" rfl rfl
  exact ⟨h.1, h.2.1⟩

/-- C9 (confirmed): snapshot deliveries replace the corresponding state
slice with the snapshot's contents.  The expense callback of each variant
replaces the whole list with the mapped (and, in variant 2, re-sorted)
snapshot documents, independently of the prior state; the profile callback
replaces the budget with the snapshot's `monthlyBudget` whenever the
snapshot exists and carries one, independently of the prior state. -/
theorem c9_snapshot_replacement :
    (∀ (s : AppState) (now : Int) (docs : List RawDoc),
        (onExpensesSnapshotV1 s now docs).expenses
          = docs.map (convertV1 now))
    ∧ (∀ (s t : AppState) (now : Int) (docs : List RawDoc),
        (onExpensesSnapshotV1 s now docs).expenses
          = (onExpensesSnapshotV1 t now docs).expenses)
    ∧ (∀ (s : AppState) (parseDate : String → Option Int) (now : Int)
        (docs : List RawDoc),
        (onExpensesSnapshotV2 s parseDate now docs).expenses
          = sortByTsDesc (docs.map (convertV2 parseDate now)))
    ∧ (∀ (s : AppState) (d : ProfileDoc) (b : Int),
        d.monthlyBudget = some b → (onProfileSnapshot s (some d)).budget = b)
    ∧ (∀ (s t : AppState) (d : ProfileDoc) (b : Int),
        d.monthlyBudget = some b →
        (onProfileSnapshot s (some d)).budget
          = (onProfileSnapshot t (some d)).budget) := by
  refine ⟨fun s now docs => rfl, fun s t now docs => rfl,
    fun s pd now docs => rfl, ?_, ?_⟩
  · intro s d b h
    simp [onProfileSnapshot, h]
  · intro s t d b h
    simp [onProfileSnapshot, h]

/-- Witness for C9 at concrete inputs: a profile snapshot with a budget
field replaces the budget. -/
theorem c9_snapshot_replacement_witness :
    (onProfileSnapshot initialState
        (some { sampleProfile with monthlyBudget := some 4200 })).budget
      = 4200 :=
  c9_snapshot_replacement.2.2.2.1 initialState
    { sampleProfile with monthlyBudget := some 4200 } 4200 rfl

/-- C10 (confirmed): every mutation operation invoked with no
authenticated identity — `handleAddExpense`, `handleUpdateExpense`,
`handleDeleteExpense` and `handleUpdateBudget` (both variants) — is a
complete no-op: the controller state and the store are returned unchanged.
`handleUpdateExpense` is likewise a no-op whenever no editing target is
set. -/
theorem c10_unauthenticated_noop (s : AppState) (es : EStore) (ps : PStore)
    (freshId : String) (now amount v : Int) (item : ExpenseItem)
    (de : String) (confirmed : Bool) (id : String) (hu : s.user = none) :
    handleAddExpense s es freshId now amount item de = (s, es)
    ∧ handleUpdateExpense s es amount item de = (s, es)
    ∧ handleDeleteExpense s es confirmed id = (s, es)
    ∧ handleUpdateBudgetV1 s ps v = (s, ps)
    ∧ handleUpdateBudgetV2 s ps v = (s, ps)
    ∧ (∀ s2 : AppState, s2.editingExpense = none →
        handleUpdateExpense s2 es amount item de = (s2, es)) := by
  refine ⟨?_, ?_, ?_, ?_, ?_, ?_⟩
  · simp [handleAddExpense, hu]
  · simp [handleUpdateExpense, hu]
  · simp [handleDeleteExpense, hu]
  · simp [handleUpdateBudgetV1, hu]
  · simp [handleUpdateBudgetV2, hu]
  · intro s2 h2
    cases hu2 : s2.user with
    | none => simp [handleUpdateExpense, hu2]
    | some u => simp [handleUpdateExpense, hu2, h2]

/-- Witness for C10 at concrete inputs: the signed-out initial state is
unchanged by every mutation operation. -/
theorem c10_unauthenticated_noop_witness :
    handleAddExpense initialState [] "k" 1 2 ExpenseItem.FOOD "d"
        = (initialState, [])
    ∧ handleUpdateBudgetV2 initialState [] 5 = (initialState, []) := by
  have h := c10_unauthenticated_noop initialState [] [] "k" 1 2 5
    ExpenseItem.FOOD "d" true "x" rfl
  exact ⟨h.1, h.2.2.2.2.1⟩
